import Mathlib

/-!
Verification development for the velero-pvc-watcher repository.

The repository contains two architectural variants of a backup-coverage
monitor for Kubernetes volumes:

- a Pod-centric work-queue controller, present in three revisions:
  the legacy all-in-one `main.go` (3-label gauge, `checkBackup`),
  a `controller` package revision with a per-owner member-pod cache
  (`syncToStdout`, 3-label gauge), and a `controller` package revision
  with a per-owner volume cache (`validateBackupAnnotations`,
  `getMissingBackups`, `getPodOwnerInfo`, 4-label gauge);
- a PVC-centric polling watcher (`watcher` package: `Update`,
  `getHandledPVCs`, `listPodHandledPVCs`, `Collect`).

This file shallowly embeds the pure data and state-transition logic of
those functions and proves or refutes the frozen claims about them.
Go maps of keys to `struct{}`/`bool` are embedded as lists used as sets,
Go string splitting is embedded character-by-character with the exact
semantics of `strings.Split`, `strings.Replace` and `strings.Fields`
at the call sites in question, and panics (out-of-range indexing) are
embedded as `Option.none`.
-/

/-! ## Data model: the object fields the program reads -/

/-- One entry of a Pod's ownerReferences list (kind, name, uid). -/
structure OwnerReference where
  kind : String
  name : String
  uid : String
deriving DecidableEq, Repr

/-- One entry of a Pod's spec.volumes list: the volume name and, when the
volume has a PersistentVolumeClaim source, that source's claim name
(`none` embeds a nil PersistentVolumeClaim pointer). -/
structure Volume where
  name : String
  persistentVolumeClaim : Option String
deriving DecidableEq, Repr

/-- The Pod fields the program reads.  The Go field `Namespace` is embedded
as `ns` because `namespace` is reserved in Lean. -/
structure Pod where
  name : String
  ns : String
  annotations : List (String × String)
  volumes : List Volume
  ownerReferences : List OwnerReference
deriving DecidableEq, Repr

/-- The PersistentVolumeClaim fields the watcher variant reads. -/
structure PersistentVolumeClaim where
  name : String
  annotations : List (String × String)
deriving DecidableEq, Repr

/-! ## Go string and map semantics at the call sites used -/

/-- Split a character list at every character satisfying `p`, keeping empty
segments; the backbone of `strings.Split` and `strings.Fields`. -/
def splitPredCL (p : Char → Bool) : List Char → List (List Char)
  | [] => [[]]
  | c :: cs =>
    let r := splitPredCL p cs
    if p c then [] :: r
    else
      match r with
      | [] => [[c]]
      | h :: t => (c :: h) :: t

/-- Go `strings.Split(s, ",")`: comma-separated segments, empties kept;
`strings.Split("", ",")` is `[""]`, which this reproduces. -/
def goSplitComma (s : String) : List String :=
  (splitPredCL (fun c => c == ',') s.data).map (fun l => String.mk l)

/-- Go `unicode.IsSpace` restricted to the ASCII whitespace characters,
which are the only ones these annotation values can meaningfully hold. -/
def goIsSpace (c : Char) : Bool :=
  c == ' ' || c == '\t' || c == '\n' || c == '\x0b' || c == '\x0c' || c == '\r'

/-- Go `strings.Fields(s)`: split on whitespace, dropping empty segments. -/
def goFields (s : String) : List String :=
  ((splitPredCL goIsSpace s.data).filter (fun l => !l.isEmpty)).map (fun l => String.mk l)

/-- Go `strings.Replace(s, ",", " ", -1)`: every comma becomes a space. -/
def commaToSpace (s : String) : String :=
  String.mk (s.data.map (fun c => if c == ',' then ' ' else c))

/-- The token list `checkBackup` derives from an annotation value:
replace commas by spaces, then take the whitespace-separated fields. -/
def backupTokens (s : String) : List String :=
  goFields (commaToSpace s)

/-- Lookup in a Go `map[string]string` embedded as an association list:
the first binding of the key, if any. -/
def lookupKV (l : List (String × String)) (k : String) : Option String :=
  (l.find? (fun p => p.fst == k)).map Prod.snd

/-- The two-valued Go map read `v, ok := m[k]` on a Pod's annotations. -/
def lookupAnnot (pod : Pod) (k : String) : Option String :=
  lookupKV pod.annotations k

/-- The one-valued Go map read `m[k]` on a Pod's annotations: the empty
string when the key is absent. -/
def annotationValue (pod : Pod) (k : String) : String :=
  (lookupAnnot pod k).getD ""

/-- The repository's `contains` helper: linear membership scan. -/
def contains (s : List String) (e : String) : Bool :=
  s.any (fun a => a == e)

/-! ## Coverage evaluator, legacy variant: `checkBackup` (main.go)

The Go loop re-derives the token lists inside every iteration from the
same annotation map, so they are loop-invariant and are hoisted here.
An absent annotation skips the membership test, which coincides with
testing membership in the empty token list. -/

/-- The token list `checkBackup` uses for annotation key `k` on `pod`:
empty when the annotation is absent (the `ok` guard in the source),
otherwise the comma-cleaned whitespace fields of its value. -/
def checkTokensOf (pod : Pod) (k : String) : List String :=
  match lookupAnnot pod k with
  | some value => backupTokens value
  | none => []

/-- The `VolumeLoop` of `checkBackup`: `true` as soon as some volume with a
PersistentVolumeClaim source is in neither token list (the early
`return true`), `false` when the loop runs out. -/
def checkLoop (btoks etoks : List String) : List Volume → Bool
  | [] => false
  | v :: rest =>
    match v.persistentVolumeClaim with
    | none => checkLoop btoks etoks rest
    | some _ =>
      if contains btoks v.name then checkLoop btoks etoks rest
      else if contains etoks v.name then checkLoop btoks etoks rest
      else true

/-- main.go `checkBackup(pod, excludeAnnotationKey, backupAnnotationKey)`:
whether some PVC-sourced volume of the pod is named in neither the
backup-annotation tokens nor the exclude-annotation tokens. -/
def checkBackup (pod : Pod) (excludeAnnotationKey backupAnnotationKey : String) : Bool :=
  checkLoop (checkTokensOf pod backupAnnotationKey) (checkTokensOf pod excludeAnnotationKey) pod.volumes

/-! ## Coverage evaluator, controller-package variant: `getMissingBackups` -/

/-- The configuration fields of the controller struct that the pure logic
reads; the queue, informer and indexer collaborators are external. -/
structure Controller where
  excludeAnnotationKey : String
  backupAnnotationKey : String
deriving DecidableEq, Repr

/-- The controller-package constructor `New`, restricted to the two
annotation-key fields (its other parameters are external collaborators).
Argument order follows the source: exclude key first, backup key second. -/
def Controller.New (excludeAnnotationKey backupAnnotationKey : String) : Controller :=
  { excludeAnnotationKey := excludeAnnotationKey, backupAnnotationKey := backupAnnotationKey }

/-- The volume loop of `getMissingBackups`: collect, in source order, the
names of PVC-sourced volumes that are in neither token set. -/
def missingLoop (includes excludes : List String) : List Volume → List String
  | [] => []
  | v :: rest =>
    match v.persistentVolumeClaim with
    | none => missingLoop includes excludes rest
    | some _ =>
      if contains includes v.name then missingLoop includes excludes rest
      else if contains excludes v.name then missingLoop includes excludes rest
      else v.name :: missingLoop includes excludes rest

/-- Controller-package `getMissingBackups`: the exclude and include sets are
the raw comma-split tokens of the two annotation values (absent
annotations read as the empty string), and the result lists every
PVC-sourced volume name found in neither set, in volume order. -/
def getMissingBackups (c : Controller) (pod : Pod) : List String :=
  let excludes := goSplitComma (annotationValue pod c.excludeAnnotationKey)
  let includes := goSplitComma (annotationValue pod c.backupAnnotationKey)
  missingLoop includes excludes pod.volumes

/-! ## Ownership resolver -/

/-- The `PodOwnerInfo` struct of the controller package; `ns` embeds the
Go field `namespace`. -/
structure PodOwnerInfo where
  name : String
  ownerKind : String
  ownerName : String
  ns : String
deriving DecidableEq, Repr

/-- Controller-package `getPodOwnerInfo`: kind and name default to "none"
and are overwritten from the first owner reference when one exists; the
identity key is namespace/kind/name. -/
def getPodOwnerInfo (pod : Pod) : PodOwnerInfo :=
  let ownerKind := match pod.ownerReferences with
    | [] => "none"
    | o :: _ => o.kind
  let ownerName := match pod.ownerReferences with
    | [] => "none"
    | o :: _ => o.name
  { name := pod.ns ++ "/" ++ ownerKind ++ "/" ++ ownerName
    ownerKind := ownerKind
    ownerName := ownerName
    ns := pod.ns }

/-! ## The spec's own evaluator contract, stated from its words

Spec 4.1/8: `Evaluate(P)` returns exactly the PVC-sourced volumes whose
name is in neither annotation list, in source order.  This definition
follows the spec sentence, to be compared against the source functions. -/

/-- Spec-side coverage evaluator: the set-builder sentence of the spec,
over a volume list and two already-parsed name lists. -/
def specEvaluate (volumes : List Volume) (B E : List String) : List String :=
  (volumes.filter
    (fun v => v.persistentVolumeClaim.isSome && !(contains B v.name) && !(contains E v.name))).map
    Volume.name

/-! ## Gauge-vector model

prometheus `GaugeVec` restricted to the operations the program uses:
`With(labels).Set(1)`, `Delete(labels)` and `Reset()`.  A series is a
label assignment paired with its value; `With(...).Set(1)` replaces any
existing series with those labels. -/

/-- A concrete label assignment, label name paired with label value. -/
abbrev Labels := List (String × String)

/-- The gauge vector: metric name, declared label names, live series. -/
structure GaugeVec where
  name : String
  labelNames : List String
  series : List (Labels × Int)
deriving DecidableEq, Repr

/-- prometheus `With(ls).Set(1)`: the series for `ls` exists afterwards
with value 1, replacing any previous series for `ls`. -/
def withSet1 (g : GaugeVec) (ls : Labels) : GaugeVec :=
  { g with series := (g.series.filter (fun p => !(decide (p.fst = ls)))) ++ [(ls, 1)] }

/-- prometheus `Delete(ls)`: the series for `ls` is removed. -/
def deleteSeries (g : GaugeVec) (ls : Labels) : GaugeVec :=
  { g with series := g.series.filter (fun p => !(decide (p.fst = ls))) }

/-- prometheus `Reset()`: every series is removed. -/
def resetGauge (g : GaugeVec) : GaugeVec :=
  { g with series := [] }

/-- Whether a series with exactly these labels is currently asserted. -/
def hasSeries (g : GaugeVec) (ls : Labels) : Bool :=
  g.series.any (fun p => decide (p.fst = ls))

/-- The `backupmonitor_missing` gauge declared in legacy main.go: three
labels, without a volume_name label. -/
def mainVolumeMissing : GaugeVec :=
  { name := "backupmonitor_missing"
    labelNames := ["namespace", "owner_kind", "owner_name"]
    series := [] }

/-- The `backupmonitor_missing` gauge declared in the controller-package
main: four labels, including volume_name. -/
def controllerVolumeMissing : GaugeVec :=
  { name := "backupmonitor_missing"
    labelNames := ["namespace", "owner_kind", "owner_name", "volume_name"]
    series := [] }

/-- The `backupmonitor_missing` gauge declared in `NewWatcher`: namespace
and pvc_name labels. -/
def watcherMissingBackups : GaugeVec :=
  { name := "backupmonitor_missing"
    labelNames := ["namespace", "pvc_name"]
    series := [] }

/-- The 3-label assignment used by the legacy enable/disableMetric. -/
def labels3 (nsp ownerKind ownerName : String) : Labels :=
  [("namespace", nsp), ("owner_kind", ownerKind), ("owner_name", ownerName)]

/-- The 4-label assignment used by the per-volume enable/disableMetric. -/
def labels4 (o : PodOwnerInfo) (volumeName : String) : Labels :=
  [("namespace", o.ns), ("owner_kind", o.ownerKind), ("owner_name", o.ownerName),
   ("volume_name", volumeName)]

/-! ## Association-list embedding of the podCache maps -/

/-- The bucket for key `k`, empty when absent (Go map read of a missing
key yields the nil map, which reads as empty). -/
def bucketD (m : List (String × List String)) (k : String) : List String :=
  ((m.find? (fun p => p.fst == k)).map Prod.snd).getD []

/-- Whether the map has a binding for `k`. -/
def hasBucket (m : List (String × List String)) (k : String) : Bool :=
  m.any (fun p => p.fst == k)

/-- Overwrite the binding of `k` with `b`, appending when absent. -/
def setBucket (m : List (String × List String)) (k : String) (b : List String) :
    List (String × List String) :=
  if hasBucket m k then m.map (fun p => if p.fst == k then (k, b) else p)
  else m ++ [(k, b)]

/-- The `if _, ok := m[k]; !ok { m[k] = map{} }` idiom. -/
def ensureBucket (m : List (String × List String)) (k : String) :
    List (String × List String) :=
  if hasBucket m k then m else m ++ [(k, [])]

/-- Insertion into a Go map used as a set (`m[x] = true`). -/
def setInsert (s : List String) (x : String) : List String :=
  if contains s x then s else s ++ [x]

/-- Removal from a Go map used as a set (`delete(m, x)`). -/
def removeAll (s : List String) (x : String) : List String :=
  s.filter (fun y => !(y == x))

/-! ## Reconciler, per-volume revision (`validateBackupAnnotations`)

`podCache` maps the owner identity key to the set of volume names whose
series have been asserted for that owner.  The state carries the cache
and the 4-label gauge; the indexers and queue are external. -/

/-- Controller state of the per-volume revision. -/
structure StateA where
  podCache : List (String × List String)
  gauge : GaugeVec
deriving DecidableEq, Repr

/-- The per-volume `enableMetric`: for each volume name, record it under
the owner in podCache and set the 4-label series to 1.  The caller has
already created the owner's bucket. -/
def enableMetricA (s : StateA) (o : PodOwnerInfo) (volumeNames : List String) : StateA :=
  volumeNames.foldl
    (fun st vn =>
      { podCache := setBucket st.podCache o.name (setInsert (bucketD st.podCache o.name) vn)
        gauge := withSet1 st.gauge (labels4 o vn) })
    s

/-- The per-volume `disableMetric`: delete the 4-label series of every
volume recorded for the owner.  podCache itself is left untouched,
exactly as in the source. -/
def disableMetricA (s : StateA) (o : PodOwnerInfo) : StateA :=
  { s with
    gauge := (bucketD s.podCache o.name).foldl (fun g vn => deleteSeries g (labels4 o vn)) s.gauge }

/-- The found branch of `validateBackupAnnotations`: resolve the owner,
create its bucket when missing, evaluate coverage, and enable metrics
when anything is missing (nothing is retracted otherwise). -/
def validateExistsA (c : Controller) (s : StateA) (pod : Pod) : StateA :=
  let o := getPodOwnerInfo pod
  let s1 : StateA := { s with podCache := ensureBucket s.podCache o.name }
  let missings := getMissingBackups c pod
  if missings.length > 0 then enableMetricA s1 o missings else s1

/-- The tombstone branch of `validateBackupAnnotations`: resolve the owner
from the last-seen pod and call `disableMetric`. -/
def validateDeletedA (s : StateA) (pod : Pod) : StateA :=
  disableMetricA s (getPodOwnerInfo pod)

/-! ## Reconciler, member-set revision (`syncToStdout`, controller package)

`podCache` maps the owner identity key to the set of member pod names
seen for that owner; the gauge carries 3-label series.  The revision
computes the owner kind, name and identity key inline with exactly the
guarded defaulting of `getPodOwnerInfo`, so that resolver is reused. -/

/-- Controller state of the member-set revision. -/
structure StateB where
  podCache : List (String × List String)
  gauge : GaugeVec
deriving DecidableEq, Repr

/-- The found branch of the member-set `syncToStdout`: record the pod as a
member of its owner, then assert the owner's 3-label series when
`checkBackup` reports a missing volume.  The call chain hands
`c.backupAnnotationKey` to checkBackup's excludeAnnotationKey parameter and
`c.excludeAnnotationKey` to its backupAnnotationKey parameter, exactly as the
source does. -/
def syncExistsB (c : Controller) (s : StateB) (pod : Pod) : StateB :=
  let o := getPodOwnerInfo pod
  let pc0 := ensureBucket s.podCache o.name
  let pc := setBucket pc0 o.name (setInsert (bucketD pc0 o.name) pod.name)
  if checkBackup pod c.backupAnnotationKey c.excludeAnnotationKey then
    { podCache := pc, gauge := withSet1 s.gauge (labels3 o.ns o.ownerKind o.ownerName) }
  else
    { podCache := pc, gauge := s.gauge }

/-- The tombstone branch of the member-set `syncToStdout`: remove the pod
from its owner's member set and, only when that set is now empty,
delete the owner's 3-label series.  `delete` on a missing owner bucket
is a no-op whose empty read still triggers the disable, as in Go. -/
def syncDeletedB (s : StateB) (pod : Pod) : StateB :=
  let o := getPodOwnerInfo pod
  let bucket := removeAll (bucketD s.podCache o.name) pod.name
  let pc := if hasBucket s.podCache o.name then setBucket s.podCache o.name bucket else s.podCache
  if bucket.isEmpty then
    { podCache := pc, gauge := deleteSeries s.gauge (labels3 o.ns o.ownerKind o.ownerName) }
  else
    { podCache := pc, gauge := s.gauge }

/-! ## Reconciler, legacy main.go deletion cleanup

main.go reads `OwnerReferences[0]` with no emptiness guard in its
tombstone branch; indexing an empty slice is a runtime panic, embedded
here as `none`. -/

/-- The tombstone branch of legacy main.go `syncToStdout`: disable the
owner's 3-label series, where the owner is read unconditionally from
the first owner reference.  `none` embeds the index-out-of-range panic
on a pod with no owner references. -/
def mainSyncDeleted (g : GaugeVec) (pod : Pod) : Option GaugeVec :=
  match pod.ownerReferences with
  | [] => none
  | o :: _ => some (deleteSeries g (labels3 pod.ns o.kind o.name))

/-! ## Retry policy (`handleErr` over the rate-limiting work queue)

The rate limiter's per-key failure count (`NumRequeues`) starts at 0, is
incremented by each `AddRateLimited` and reset by `Forget`.  One record
tracks a single key between events: its failure count, whether it sits
in the queue awaiting another attempt, and whether its error has been
surfaced to the process-wide error handler. -/

/-- The queue-visible record of one key. -/
structure KeyRetry where
  numRequeues : Nat
  queued : Bool
  surfaced : Bool
deriving DecidableEq, Repr

/-- One processing attempt followed by `handleErr`: on success the key's
history is forgotten and it is not re-added; on failure with fewer than
5 recorded requeues it is re-enqueued rate-limited (incrementing the
count); at the ceiling it is forgotten, dropped from the queue and its
error surfaced. -/
def processAttempt (failed : Bool) (s : KeyRetry) : KeyRetry :=
  if !failed then
    { numRequeues := 0, queued := false, surfaced := false }
  else if s.numRequeues < 5 then
    { numRequeues := s.numRequeues + 1, queued := true, surfaced := false }
  else
    { numRequeues := 0, queued := false, surfaced := true }

/-- A key freshly enqueued by an informer event, with no retry history. -/
def freshKey : KeyRetry :=
  { numRequeues := 0, queued := true, surfaced := false }

/-- The record after n consecutive failing attempts on a fresh key. -/
def failN : Nat → KeyRetry
  | 0 => freshKey
  | n + 1 => processAttempt true (failN n)

/-! ## Run: startup gating of the two variants

Only the control flow of the two `Run` functions is embedded: which log
lines are emitted, whether the call returns before its processing phase,
and how many workers the controller starts.  The controller returns
early, starting no worker, when `WaitForCacheSync` fails; the watcher
logs each failed sync and falls through unconditionally. -/

/-- Controller-package `Run`, as (error log lines, workers started): with
an unsynced cache it reports the timeout and starts zero workers;
workers start only after the sync wait succeeds. -/
def controllerRunModel (hasSynced : Bool) (threadiness : Nat) : List String × Nat :=
  if !hasSynced then (["timed out waiting for caches to sync"], 0)
  else ([], threadiness)

/-- Watcher `Run`, as (log lines, returned early): each failed sync only
appends a log line, and the function never returns early, so the caller
always proceeds to register the collector and serve metrics. -/
def watcherRunModel (podsSynced pvcsSynced nsSynced : Bool) : List String × Bool :=
  let l1 : List String := if podsSynced then [] else ["failed to sync pods"]
  let l2 : List String := if pvcsSynced then [] else ["failed to sync pvcs"]
  let l3 : List String := if nsSynced then [] else ["failed to sync namespaces"]
  (l1 ++ l2 ++ l3, false)

/-! ## PVC-centric watcher variant -/

/-- Annotation key constant of the watcher package. -/
def BackupAnnotationKey : String := "backup.velero.io/backup-volumes"

/-- Annotation key constant of the watcher package. -/
def ExcludeAnnotationKey : String := "backup.velero.io/backup-volumes-excludes"

/-- Annotation key constant of the watcher package. -/
def ExcludePVCAnnotationKey : String := "backup.velero.io/backup-excluded"

/-- The watcher's `PVCInfo` record. -/
structure PVCInfo where
  ns : String
  pvcName : String
deriving DecidableEq, Repr

/-- The handled volume names of `listPodHandledPVCs`: the union of the
comma-split tokens of the pod's backup and exclude annotations, each
contributing nothing when absent.  No trimming is applied. -/
def handledVolumeNames (pod : Pod) : List String :=
  (match lookupAnnot pod BackupAnnotationKey with
   | some s => goSplitComma s
   | none => []) ++
  (match lookupAnnot pod ExcludeAnnotationKey with
   | some s => goSplitComma s
   | none => [])

/-- Insertion into a Go `map[string]string`: overwrite the key's binding
when present, append otherwise. -/
def mapInsert (m : List (String × String)) (k v : String) : List (String × String) :=
  if m.any (fun p => p.fst == k) then m.map (fun p => if p.fst == k then (k, v) else p)
  else m ++ [(k, v)]

/-- The `volumeIndex` map of `listPodHandledPVCs`: volume name to claim
name over the pod's PVC-sourced volumes, later volumes overwriting
earlier ones of the same name. -/
def volumeIndex (pod : Pod) : List (String × String) :=
  pod.volumes.foldl
    (fun m v =>
      match v.persistentVolumeClaim with
      | none => m
      | some claim => mapInsert m v.name claim)
    []

/-- `listPodHandledPVCs`: the claim names of indexed volumes whose volume
name is among the pod's handled volume names. -/
def listPodHandledPVCs (pod : Pod) : List String :=
  (volumeIndex pod).filterMap
    (fun p => if contains (handledVolumeNames pod) p.fst then some p.snd else none)

/-- The owner scan of `getHandledPVCs` for a single pod: walk its owner
references, skipping the whole pod when an already-known owner uid of a
kind other than StatefulSet appears, registering each uid otherwise.
Returns the updated known-parent set and whether the pod was skipped. -/
def registerOwners (known : List String) : List OwnerReference → List String × Bool
  | [] => (known, false)
  | o :: rest =>
    if contains known o.uid && !(o.kind == "StatefulSet") then (known, true)
    else registerOwners (setInsert known o.uid) rest

/-- The pod loop of `getHandledPVCs`, carrying the known-parent set and
the handled claim-name accumulation. -/
def handledLoop (known : List String) (handled : List String) : List Pod → List String
  | [] => handled
  | pod :: rest =>
    let res := registerOwners known pod.ownerReferences
    if res.snd then handledLoop res.fst handled rest
    else handledLoop res.fst (handled ++ listPodHandledPVCs pod) rest

/-- `getHandledPVCs` over the namespace's pod listing: every claim name
some non-skipped pod handles. -/
def getHandledPVCs (pods : List Pod) : List String :=
  handledLoop [] [] pods

/-- The pods `getHandledPVCs` actually consults, in listing order: the
same scan as `handledLoop`, returning the non-skipped pods themselves. -/
def selectedLoop (known : List String) : List Pod → List Pod
  | [] => []
  | pod :: rest =>
    let res := registerOwners known pod.ownerReferences
    if res.snd then selectedLoop res.fst rest
    else pod :: selectedLoop res.fst rest

/-- The non-skipped pods of the `getHandledPVCs` scan. -/
def selectedPods (pods : List Pod) : List Pod :=
  selectedLoop [] pods

/-- The watcher's PVC-level exclusion test: the `backup-excluded`
annotation is present with value exactly "true". -/
def pvcExcluded (pvc : PersistentVolumeClaim) : Bool :=
  match lookupKV pvc.annotations ExcludePVCAnnotationKey with
  | some v => v == "true"
  | none => false

/-- Watcher `Update` for one namespace: over the namespace's pod and PVC
listings, every PVC that is neither self-excluded nor among the handled
claim names, in listing order. -/
def Update (nsp : String) (pods : List Pod) (pvcs : List PersistentVolumeClaim) : List PVCInfo :=
  let handled := getHandledPVCs pods
  pvcs.filterMap
    (fun pvc =>
      if pvcExcluded pvc then none
      else if contains handled pvc.name then none
      else some { ns := nsp, pvcName := pvc.name })

/-- Spec-side predicate for the PVC-variant coverage sentence: the pod
references claim name through some volume whose name appears in the
pod's backup-or-exclude annotation token lists. -/
def podHandlesPVC (pod : Pod) (claim : String) : Bool :=
  pod.volumes.any
    (fun v => v.persistentVolumeClaim == some claim && contains (handledVolumeNames pod) v.name)

/-! ## Helper lemmas -/

theorem anyFilterEq {α : Type} (p q : α → Bool) :
    ∀ xs : List α, (xs.filter p).any q = xs.any (fun x => p x && q x) := by
  intro xs
  induction xs with
  | nil => rfl
  | cons x rest ih =>
    by_cases h : p x = true <;> simp [List.filter_cons, h, ih]

theorem anyCongrMem {α : Type} (p q : α → Bool) (h : ∀ x, p x = q x) :
    ∀ xs : List α, xs.any p = xs.any q := by
  intro xs
  induction xs with
  | nil => rfl
  | cons x rest ih => simp [List.any_cons, h x, ih]

theorem hasSeries_deleteSeries (g : GaugeVec) (ls l2 : Labels) :
    hasSeries (deleteSeries g ls) l2 = (hasSeries g l2 && !(decide (l2 = ls))) := by
  unfold hasSeries deleteSeries
  rw [anyFilterEq]
  by_cases h : l2 = ls
  · subst h
    simp
  · simp only [Bool.and_comm]
    have hd : (decide (l2 = ls)) = false := by simp [h]
    rw [hd]
    simp only [Bool.not_false, Bool.and_true]
    apply anyCongrMem
    intro p
    by_cases hp : p.fst = l2
    · subst hp
      simp [h]
    · simp [hp]

theorem missingLoop_eq_spec (inc exc : List String) :
    ∀ vs : List Volume, missingLoop inc exc vs = specEvaluate vs inc exc := by
  intro vs
  induction vs with
  | nil => rfl
  | cons v rest ih =>
    cases h : v.persistentVolumeClaim with
    | none => simp [missingLoop, specEvaluate, h, List.filter_cons, ih]
    | some claim =>
      by_cases hi : contains inc v.name = true
      · simp [missingLoop, specEvaluate, h, hi, List.filter_cons, ih]
      · by_cases he : contains exc v.name = true
        · simp [missingLoop, specEvaluate, h, hi, he, List.filter_cons, ih]
        · simp [missingLoop, specEvaluate, h, hi, he, List.filter_cons, ih]

theorem checkLoop_eq_spec (btoks etoks : List String) :
    ∀ vs : List Volume, checkLoop btoks etoks vs = !(specEvaluate vs btoks etoks).isEmpty := by
  intro vs
  induction vs with
  | nil => rfl
  | cons v rest ih =>
    cases h : v.persistentVolumeClaim with
    | none => simp [checkLoop, specEvaluate, h, List.filter_cons, ih]
    | some claim =>
      by_cases hi : contains btoks v.name = true
      · simp [checkLoop, specEvaluate, h, hi, List.filter_cons, ih]
      · by_cases he : contains etoks v.name = true
        · simp [checkLoop, specEvaluate, h, hi, he, List.filter_cons, ih]
        · simp [checkLoop, specEvaluate, h, hi, he, List.filter_cons]

theorem specEvaluate_comm (B E : List String) :
    ∀ vs : List Volume, specEvaluate vs B E = specEvaluate vs E B := by
  intro vs
  induction vs with
  | nil => rfl
  | cons v rest ih =>
    unfold specEvaluate at ih ⊢
    rw [List.filter_cons, List.filter_cons]
    cases hs : v.persistentVolumeClaim.isSome <;>
      cases hb : contains B v.name <;>
        cases he : contains E v.name <;>
          simp_all [specEvaluate]

/-- Restating `getMissingBackups` through the spec evaluator. -/
theorem getMissingBackups_eq_spec (c : Controller) (pod : Pod) :
    getMissingBackups c pod =
      specEvaluate pod.volumes (goSplitComma (annotationValue pod c.backupAnnotationKey))
        (goSplitComma (annotationValue pod c.excludeAnnotationKey)) := by
  unfold getMissingBackups
  exact missingLoop_eq_spec _ _ pod.volumes

/-- Restating `checkBackup` through the spec evaluator. -/
theorem checkBackup_eq_spec (pod : Pod) (excludeAnnotationKey backupAnnotationKey : String) :
    checkBackup pod excludeAnnotationKey backupAnnotationKey =
      !(specEvaluate pod.volumes (checkTokensOf pod backupAnnotationKey)
          (checkTokensOf pod excludeAnnotationKey)).isEmpty := by
  unfold checkBackup
  exact checkLoop_eq_spec _ _ pod.volumes

/-! ## C1 and C10: the coverage evaluator against the spec contract -/

/-- C1: for every Pod with volume list V, backup token list B and exclude
token list E, `getMissingBackups` returns exactly the names of the
volumes with a PersistentVolumeClaim source whose name is in neither B
nor E, in volume order, and `checkBackup` reports exactly whether that
set (under its own trimmed tokenization) is non-empty; consequently
volumes without a PVC source never appear in the result, and a name
present in both lists is absent from it. -/
theorem coverage_evaluator_exact (c : Controller) (pod : Pod)
    (excludeAnnotationKey backupAnnotationKey : String) :
    getMissingBackups c pod =
      specEvaluate pod.volumes (goSplitComma (annotationValue pod c.backupAnnotationKey))
        (goSplitComma (annotationValue pod c.excludeAnnotationKey)) ∧
    checkBackup pod excludeAnnotationKey backupAnnotationKey =
      !(specEvaluate pod.volumes (checkTokensOf pod backupAnnotationKey)
          (checkTokensOf pod excludeAnnotationKey)).isEmpty ∧
    (∀ n, n ∈ getMissingBackups c pod →
      ∃ v, v ∈ pod.volumes ∧ v.name = n ∧ v.persistentVolumeClaim.isSome = true) :=
  by
  refine ⟨getMissingBackups_eq_spec c pod, checkBackup_eq_spec pod _ _, ?_⟩
  intro n hn
  rw [getMissingBackups_eq_spec] at hn
  unfold specEvaluate at hn
  rw [List.mem_map] at hn
  obtain ⟨v, hv, hvn⟩ := hn
  rw [List.mem_filter] at hv
  refine ⟨v, hv.1, hvn, ?_⟩
  have := hv.2
  simp only [Bool.and_eq_true] at this
  exact this.1.1

/-- C10: the evaluator treats its two annotation lists symmetrically, so a
controller built with the exclude and backup annotation keys in swapped
positions (as the controller-package main in fact does) computes the
same missing set for every Pod, and `checkBackup` likewise. -/
theorem evaluator_symmetric_in_annotation_keys (excludeKey backupKey : String) (pod : Pod) :
    getMissingBackups (Controller.New excludeKey backupKey) pod
      = getMissingBackups (Controller.New backupKey excludeKey) pod ∧
    checkBackup pod excludeKey backupKey = checkBackup pod backupKey excludeKey :=
  by
  constructor
  · rw [getMissingBackups_eq_spec, getMissingBackups_eq_spec]
    exact specEvaluate_comm _ _ _
  · rw [checkBackup_eq_spec, checkBackup_eq_spec, specEvaluate_comm]

/-! ## C2: deletion-time retraction behaviour -/

theorem labels4_inj (o : PodOwnerInfo) (a b : String) : labels4 o a = labels4 o b ↔ a = b := by
  simp [labels4]

theorem hasSeries_foldlDelete (o : PodOwnerInfo) :
    ∀ (bucket : List String) (g : GaugeVec) (vn : String),
      hasSeries (bucket.foldl (fun g v => deleteSeries g (labels4 o v)) g) (labels4 o vn)
        = (hasSeries g (labels4 o vn) && !(contains bucket vn)) := by
  intro bucket
  induction bucket with
  | nil =>
    intro g vn
    simp [contains]
  | cons b bs ih =>
    intro g vn
    rw [List.foldl_cons, ih, hasSeries_deleteSeries]
    by_cases h : vn = b
    · subst h
      simp [contains, labels4_inj]
    · have h4 : (decide (labels4 o vn = labels4 o b)) = false := by
        simp [labels4_inj, h]
      have hb : (b == vn) = false := by
        simp [beq_eq_false_iff_ne, Ne.symm h]
      rw [h4]
      simp [contains, List.any_cons, hb, Bool.and_assoc]

/-- C2 amended: what deletion processing actually retracts.  In the
per-volume revision, processing a tombstoned member pod deletes the
series of every volume recorded for the owner, regardless of whether
other member pods of the owner remain and still report those volumes
missing.  In the member-set revision, deletion deletes the owner's
(volume-less) series exactly when the deleted pod was the last recorded
member pod of that owner, regardless of whether the remaining members
report any volume missing.  The asserted-iff-some-member-missing
invariant of the claim holds in neither revision. -/
theorem deletion_retraction_behaviour :
    (∀ (s : StateA) (pod : Pod) (vn : String),
      hasSeries (validateDeletedA s pod).gauge (labels4 (getPodOwnerInfo pod) vn)
        = (hasSeries s.gauge (labels4 (getPodOwnerInfo pod) vn)
            && !(contains (bucketD s.podCache (getPodOwnerInfo pod).name) vn))) ∧
    (∀ (s : StateB) (pod : Pod),
      hasSeries (syncDeletedB s pod).gauge
          (labels3 (getPodOwnerInfo pod).ns (getPodOwnerInfo pod).ownerKind
            (getPodOwnerInfo pod).ownerName)
        = (hasSeries s.gauge
            (labels3 (getPodOwnerInfo pod).ns (getPodOwnerInfo pod).ownerKind
              (getPodOwnerInfo pod).ownerName)
            && !(removeAll (bucketD s.podCache (getPodOwnerInfo pod).name) pod.name).isEmpty)) := by
  constructor
  · intro s pod vn
    unfold validateDeletedA disableMetricA
    exact hasSeries_foldlDelete _ _ _ _
  · intro s pod
    unfold syncDeletedB
    by_cases hb : (removeAll (bucketD s.podCache (getPodOwnerInfo pod).name) pod.name).isEmpty = true
    · simp [hb, hasSeries_deleteSeries]
    · simp [hb]

/-- The annotation keys the controller-package main hands to `New`. -/
def cexC : Controller :=
  Controller.New "backup.velero.io/backup-volumes" "backup.velero.io/backup-volumes-excludes"

/-- Member pod web-0 of StatefulSet web, volume data unannotated. -/
def cexPodA : Pod :=
  { name := "web-0", ns := "d"
    annotations := []
    volumes := [{ name := "data", persistentVolumeClaim := some "data-web-0" }]
    ownerReferences := [{ kind := "StatefulSet", name := "web", uid := "u1" }] }

/-- Member pod web-1 of the same StatefulSet, volume data unannotated. -/
def cexPodB : Pod :=
  { name := "web-1", ns := "d"
    annotations := []
    volumes := [{ name := "data", persistentVolumeClaim := some "data-web-1" }]
    ownerReferences := [{ kind := "StatefulSet", name := "web", uid := "u1" }] }

/-- The per-volume controller state before any event. -/
def cexStateA0 : StateA :=
  { podCache := [], gauge := controllerVolumeMissing }

/-- C2 counterexample: owner web has member pods web-0 and web-1, both
reporting volume data missing; after syncing both, the (web, data)
series is asserted, yet processing the deletion of web-0 alone retracts
it although web-1 is still known and still reports data missing. -/
theorem eager_retraction_counterexample :
    getMissingBackups cexC cexPodB = ["data"] ∧
    hasSeries (validateExistsA cexC (validateExistsA cexC cexStateA0 cexPodA) cexPodB).gauge
      (labels4 (getPodOwnerInfo cexPodB) "data") = true ∧
    hasSeries
      (validateDeletedA (validateExistsA cexC (validateExistsA cexC cexStateA0 cexPodA) cexPodB)
        cexPodA).gauge
      (labels4 (getPodOwnerInfo cexPodB) "data") = false := by
  decide

/-! ## C3: no retraction on a now-covered update -/

/-- Pod with an unannotated PVC-backed volume data. -/
def c3Pod : Pod :=
  { name := "web-0", ns := "d"
    annotations := []
    volumes := [{ name := "data", persistentVolumeClaim := some "data-web-0" }]
    ownerReferences := [{ kind := "StatefulSet", name := "web", uid := "u1" }] }

/-- The same pod after adding the backup annotation covering data. -/
def c3PodCovered : Pod :=
  { c3Pod with annotations := [("backup.velero.io/backup-volumes-excludes", "data")] }

/-- C3 evidence: the found branch of `validateBackupAnnotations` only ever
enables metrics; when the evaluator returns the empty set it does
nothing, so the (owner, data) series asserted for the previously
uncovered pod is still asserted after reconciling the covered update. -/
theorem covered_update_leaves_series_asserted :
    getMissingBackups cexC c3PodCovered = [] ∧
    hasSeries (validateExistsA cexC cexStateA0 c3Pod).gauge
      (labels4 (getPodOwnerInfo c3Pod) "data") = true ∧
    hasSeries (validateExistsA cexC (validateExistsA cexC cexStateA0 c3Pod) c3PodCovered).gauge
      (labels4 (getPodOwnerInfo c3Pod) "data") = true := by
  decide

/-! ## C4: retry ceiling -/

/-- C4 counterexample: after 5 consecutive sync failures the key has been
re-enqueued each time (the recorded requeue counts were 0 through 4,
all below 5) and nothing has been surfaced, so it is not dropped and a
6th failing attempt does occur; only that 6th failure drops the key and
surfaces its error. -/
theorem five_failures_still_requeued :
    (failN 5).queued = true ∧ (failN 5).surfaced = false ∧ (failN 5).numRequeues = 5 ∧
    (failN 6).queued = false ∧ (failN 6).surfaced = true := by
  decide

/-- C4 amended: through 5 consecutive failures the key is requeued
rate-limited with its recorded requeue count equal to the number of
failures; the 6th consecutive failure forgets the key, drops it from
the queue and surfaces the error, so a 7th failing attempt never occurs
for that key-generation; a successful attempt resets the retry
history. -/
theorem retry_ceiling_six_attempts (n : Nat) (h : n ≤ 5) :
    ((failN n).numRequeues = n ∧ (failN n).queued = true ∧ (failN n).surfaced = false) ∧
    failN 6 = { numRequeues := 0, queued := false, surfaced := true } ∧
    (∀ s : KeyRetry, processAttempt false s
      = { numRequeues := 0, queued := false, surfaced := false }) := by
  refine ⟨?_, by decide, fun s => rfl⟩
  interval_cases n <;> decide

/-- Witness for the retry-ceiling theorem at 5 recorded failures. -/
theorem retry_ceiling_six_attempts_witness :
    ((failN 5).numRequeues = 5 ∧ (failN 5).queued = true ∧ (failN 5).surfaced = false) ∧
    failN 6 = { numRequeues := 0, queued := false, surfaced := true } ∧
    (∀ s : KeyRetry, processAttempt false s
      = { numRequeues := 0, queued := false, surfaced := false }) :=
  retry_ceiling_six_attempts 5 (by decide)

/-! ## C5: whitespace tolerance of the tokenizers -/

/-- Pod mounting PVC pvcB through volume b, backup annotation "a, b". -/
def c5PodSpaced : Pod :=
  { name := "p", ns := "d"
    annotations := [("backup.velero.io/backup-volumes", "a, b")]
    volumes := [{ name := "b", persistentVolumeClaim := some "pvcB" }]
    ownerReferences := [] }

/-- The same pod with backup annotation "a,b". -/
def c5PodTight : Pod :=
  { c5PodSpaced with annotations := [("backup.velero.io/backup-volumes", "a,b")] }

/-- Controller configured with the default annotation keys. -/
def c5Controller : Controller :=
  Controller.New "backup.velero.io/backup-volumes-excludes" "backup.velero.io/backup-volumes"

/-- C5 counterexample: `getMissingBackups` and `listPodHandledPVCs` split
on commas without trimming, so the token for volume b derived from
"a, b" is " b", and both evaluators treat volume b as unhandled there
while treating it as handled under "a,b". -/
theorem comma_split_whitespace_sensitive :
    getMissingBackups c5Controller c5PodSpaced = ["b"] ∧
    getMissingBackups c5Controller c5PodTight = [] ∧
    listPodHandledPVCs c5PodSpaced = [] ∧
    listPodHandledPVCs c5PodTight = ["pvcB"] := by
  decide

theorem checkTokensOf_single (nm nsp bk v k : String) (vols : List Volume)
    (ors : List OwnerReference) :
    checkTokensOf
        { name := nm, ns := nsp, annotations := [(bk, v)], volumes := vols,
          ownerReferences := ors } k
      = if (bk == k) = true then backupTokens v else [] := by
  unfold checkTokensOf lookupAnnot lookupKV
  by_cases h : (bk == k) = true
  · simp [List.find?, h]
  · simp [List.find?, h]

/-- C5 amended: only the legacy `checkBackup` evaluator tolerates
whitespace around names: replacing commas by spaces and re-tokenizing
on whitespace makes it derive the same token list, hence the same
verdict for every volume list, from "a, b" as from "a,b"; the
comma-splitting evaluators distinguish the two values. -/
theorem checkBackup_whitespace_tolerant (volumes : List Volume)
    (nm nsp excludeKey backupKey : String) (ors : List OwnerReference) :
    checkBackup
        { name := nm, ns := nsp, annotations := [(backupKey, "a, b")], volumes := volumes,
          ownerReferences := ors } excludeKey backupKey
      = checkBackup
          { name := nm, ns := nsp, annotations := [(backupKey, "a,b")], volumes := volumes,
            ownerReferences := ors } excludeKey backupKey ∧
    backupTokens "a, b" = backupTokens "a,b" := by
  have htok : backupTokens "a, b" = backupTokens "a,b" := by decide
  refine ⟨?_, htok⟩
  unfold checkBackup
  rw [checkTokensOf_single, checkTokensOf_single, checkTokensOf_single, checkTokensOf_single,
    htok]

/-! ## C6: owner identity on the deletion path -/

/-- A pod with no owner references. -/
def barePod : Pod :=
  { name := "solo", ns := "d", annotations := [], volumes := [], ownerReferences := [] }

/-- C6 counterexample: the legacy main.go deletion cleanup reads
`OwnerReferences[0]` with no guard; on a tombstoned pod without owner
references that index is out of range, a runtime panic embedded as
`none` — the branch fails instead of using the sentinel. -/
theorem main_deletion_fails_without_owner :
    mainSyncDeleted mainVolumeMissing barePod = none := by
  decide

/-- C6 amended: `getPodOwnerInfo` (used by both sync paths of the
controller-package revisions) is total: on a pod with no owner
references it yields the sentinel identity (namespace, none, none)
instead of accessing the first element; the legacy main.go deletion
branch lacks this guard and fails on such a pod. -/
theorem owner_identity_sentinel_total (pod : Pod) (h : pod.ownerReferences = []) :
    getPodOwnerInfo pod =
      { name := pod.ns ++ "/" ++ "none" ++ "/" ++ "none"
        ownerKind := "none", ownerName := "none", ns := pod.ns } := by
  unfold getPodOwnerInfo
  rw [h]

/-- Witness: the sentinel identity of the ownerless pod. -/
theorem owner_identity_sentinel_total_witness :
    getPodOwnerInfo barePod =
      { name := barePod.ns ++ "/" ++ "none" ++ "/" ++ "none"
        ownerKind := "none", ownerName := "none", ns := barePod.ns } :=
  owner_identity_sentinel_total barePod rfl

/-! ## C7: startup gating of the two Run functions -/

/-- C7 counterexample: when the pod cache fails its initial sync, the
watcher's Run merely logs the failure and returns normally rather than
early, so the caller proceeds to register the collector and serve. -/
theorem watcher_run_continues_after_failed_sync :
    (watcherRunModel false true true).snd = false ∧
    (watcherRunModel false true true).fst = ["failed to sync pods"] := by
  decide

/-- C7 amended: the event-driven controller's Run starts zero workers and
returns early, reporting the timeout, when the initial cache sync
fails, and starts its workers only in the successfully-synced branch;
the poll-based watcher's Run never returns early on a failed sync, it
only logs it. -/
theorem run_sync_gating (threadiness : Nat) (p q r : Bool) :
    controllerRunModel false threadiness = (["timed out waiting for caches to sync"], 0) ∧
    controllerRunModel true threadiness = ([], threadiness) ∧
    (watcherRunModel p q r).snd = false := by
  exact ⟨rfl, rfl, rfl⟩

/-! ## C9: the exported metric surface -/

/-- The gauge states reachable by the program: one of the three declared
gauges, evolved by the only operations the program performs on them
(`With(...).Set(1)`, `Delete(...)`, `Reset()`). -/
inductive GaugeReached : GaugeVec → Prop where
  | initMain : GaugeReached mainVolumeMissing
  | initController : GaugeReached controllerVolumeMissing
  | initWatcher : GaugeReached watcherMissingBackups
  | set1 (g : GaugeVec) (ls : Labels) : GaugeReached g → GaugeReached (withSet1 g ls)
  | del (g : GaugeVec) (ls : Labels) : GaugeReached g → GaugeReached (deleteSeries g ls)
  | reset (g : GaugeVec) : GaugeReached g → GaugeReached (resetGauge g)

/-- C9 counterexample: the legacy main.go Pod-centric gauge declares only
namespace, owner_kind and owner_name; its label set is not the claimed
four-label set with volume_name. -/
theorem main_gauge_lacks_volume_label :
    mainVolumeMissing.labelNames ≠ ["namespace", "owner_kind", "owner_name", "volume_name"] := by
  decide

/-- C9 amended: every reachable gauge state is named backupmonitor_missing
and every asserted series in it has value exactly 1 (an unasserted
subject has no series, and 0 is never emitted); the label sets are
namespace, owner_kind, owner_name, volume_name in the controller-package
Pod-centric revision, namespace, owner_kind, owner_name in the legacy
main.go Pod-centric revision, and namespace, pvc_name in the
PVC-centric watcher. -/
theorem gauge_surface (g : GaugeVec) (h : GaugeReached g) :
    g.name = "backupmonitor_missing" ∧
    (∀ p, p ∈ g.series → p.snd = 1) ∧
    controllerVolumeMissing.labelNames = ["namespace", "owner_kind", "owner_name", "volume_name"] ∧
    mainVolumeMissing.labelNames = ["namespace", "owner_kind", "owner_name"] ∧
    watcherMissingBackups.labelNames = ["namespace", "pvc_name"] := by
  induction h with
  | initMain => exact ⟨rfl, by simp [mainVolumeMissing], rfl, rfl, rfl⟩
  | initController => exact ⟨rfl, by simp [controllerVolumeMissing], rfl, rfl, rfl⟩
  | initWatcher => exact ⟨rfl, by simp [watcherMissingBackups], rfl, rfl, rfl⟩
  | set1 g0 ls _ ih =>
    refine ⟨ih.1, ?_, rfl, rfl, rfl⟩
    intro p hp
    rcases List.mem_append.mp hp with hin | hnew
    · exact ih.2.1 p (List.mem_of_mem_filter hin)
    · rw [List.mem_singleton.mp hnew]
  | del g0 ls _ ih =>
    refine ⟨ih.1, ?_, rfl, rfl, rfl⟩
    intro p hp
    exact ih.2.1 p (List.mem_of_mem_filter hp)
  | reset g0 _ ih =>
    refine ⟨ih.1, ?_, rfl, rfl, rfl⟩
    intro p hp
    simp [resetGauge] at hp

/-- Witness for the gauge-surface theorem at a concretely reached state:
the controller gauge after one assertion. -/
theorem gauge_surface_witness :
    (withSet1 controllerVolumeMissing (labels4 (getPodOwnerInfo cexPodA) "data")).name
        = "backupmonitor_missing" ∧
    (∀ p, p ∈ (withSet1 controllerVolumeMissing
        (labels4 (getPodOwnerInfo cexPodA) "data")).series → p.snd = 1) ∧
    controllerVolumeMissing.labelNames = ["namespace", "owner_kind", "owner_name", "volume_name"] ∧
    mainVolumeMissing.labelNames = ["namespace", "owner_kind", "owner_name"] ∧
    watcherMissingBackups.labelNames = ["namespace", "pvc_name"] :=
  gauge_surface _ (GaugeReached.set1 _ _ GaugeReached.initController)

/-! ## C8: PVC-centric coverage -/

theorem contains_append (a b : List String) (x : String) :
    contains (a ++ b) x = (contains a x || contains b x) := by
  simp [contains, List.any_append]

theorem anyCongrOfMem {α : Type} (p q : α → Bool) :
    ∀ xs : List α, (∀ x ∈ xs, p x = q x) → xs.any p = xs.any q := by
  intro xs
  induction xs with
  | nil => intro _; rfl
  | cons x rest ih =>
    intro h
    simp only [List.any_cons, h x (List.mem_cons_self _ _),
      ih (fun y hy => h y (List.mem_cons_of_mem _ hy))]

theorem handledLoop_spec (x : String) :
    ∀ (pods : List Pod) (known acc : List String),
      contains (handledLoop known acc pods) x
        = (contains acc x
            || (selectedLoop known pods).any (fun p => contains (listPodHandledPVCs p) x)) := by
  intro pods
  induction pods with
  | nil =>
    intro known acc
    simp [handledLoop, selectedLoop]
  | cons pod rest ih =>
    intro known acc
    cases h : (registerOwners known pod.ownerReferences).snd with
    | true =>
      rw [show handledLoop known acc (pod :: rest)
            = handledLoop (registerOwners known pod.ownerReferences).1 acc rest from by
          simp [handledLoop, h]]
      rw [show selectedLoop known (pod :: rest)
            = selectedLoop (registerOwners known pod.ownerReferences).1 rest from by
          simp [selectedLoop, h]]
      exact ih _ _
    | false =>
      rw [show handledLoop known acc (pod :: rest)
            = handledLoop (registerOwners known pod.ownerReferences).1
                (acc ++ listPodHandledPVCs pod) rest from by
          simp [handledLoop, h]]
      rw [show selectedLoop known (pod :: rest)
            = pod :: selectedLoop (registerOwners known pod.ownerReferences).1 rest from by
          simp [selectedLoop, h]]
      rw [ih, contains_append]
      simp [List.any_cons, Bool.or_assoc]

theorem getHandledPVCs_selected (pods : List Pod) (x : String) :
    contains (getHandledPVCs pods) x
      = (selectedPods pods).any (fun p => contains (listPodHandledPVCs p) x) := by
  unfold getHandledPVCs selectedPods
  rw [handledLoop_spec]
  simp [contains]

theorem volumeIndex_foldl_nodup :
    ∀ vs : List Volume, (vs.map Volume.name).Nodup →
      ∀ m : List (String × String), (∀ v ∈ vs, m.any (fun p => p.fst == v.name) = false) →
        vs.foldl
          (fun m v =>
            match v.persistentVolumeClaim with
            | none => m
            | some claim => mapInsert m v.name claim) m
          = m ++ vs.filterMap (fun v => v.persistentVolumeClaim.map (fun c => (v.name, c))) := by
  intro vs
  induction vs with
  | nil =>
    intro _ m _
    simp
  | cons v rest ih =>
    intro hnd m hm
    rw [List.map_cons, List.nodup_cons] at hnd
    obtain ⟨hnotin, hrest⟩ := hnd
    rw [List.foldl_cons]
    cases hv : v.persistentVolumeClaim with
    | none =>
      rw [ih hrest m (fun u hu => hm u (List.mem_cons_of_mem _ hu))]
      simp [List.filterMap_cons, hv]
    | some claim =>
      have hmv : m.any (fun p => p.fst == v.name) = false := hm v (List.mem_cons_self _ _)
      have hins : mapInsert m v.name claim = m ++ [(v.name, claim)] := by
        unfold mapInsert
        rw [hmv]
        simp
      have hm2 : ∀ u ∈ rest, ((m ++ [(v.name, claim)]).any (fun p => p.fst == u.name)) = false := by
        intro u hu
        rw [List.any_append]
        have h1 := hm u (List.mem_cons_of_mem _ hu)
        have hne : v.name ≠ u.name := by
          intro he
          exact hnotin (he ▸ List.mem_map_of_mem Volume.name hu)
        simp [List.any_cons, h1, hne]
      show List.foldl _ (mapInsert m v.name claim) rest = _
      rw [hins, ih hrest _ hm2]
      simp [List.filterMap_cons, hv]

theorem volumeIndex_of_nodup (pod : Pod) (h : (pod.volumes.map Volume.name).Nodup) :
    volumeIndex pod
      = pod.volumes.filterMap (fun v => v.persistentVolumeClaim.map (fun c => (v.name, c))) := by
  unfold volumeIndex
  have := volumeIndex_foldl_nodup pod.volumes h [] (fun u _ => rfl)
  simpa using this

theorem someBeqSome (a b : String) : ((some a == some b) : Bool) = (a == b) :=
  rfl

theorem containsFilterMapAux (handled : List String) (claim : String) :
    ∀ vs : List Volume,
      contains
          ((vs.filterMap (fun v => v.persistentVolumeClaim.map (fun c => (v.name, c)))).filterMap
            (fun p => if contains handled p.fst then some p.snd else none)) claim
        = vs.any
            (fun v => v.persistentVolumeClaim == some claim && contains handled v.name) := by
  intro vs
  induction vs with
  | nil => rfl
  | cons v rest ih =>
    cases hv : v.persistentVolumeClaim with
    | none =>
      have hf : (fun v : Volume => v.persistentVolumeClaim.map (fun c => (v.name, c))) v
          = none := by
        simp [hv]
      rw [@List.filterMap_cons_none Volume (String × String)
        (fun v : Volume => v.persistentVolumeClaim.map (fun c => (v.name, c))) v rest hf,
        ih, List.any_cons, hv]
      rfl
    | some c =>
      have hf : (fun v : Volume => v.persistentVolumeClaim.map (fun c => (v.name, c))) v
          = some (v.name, c) := by
        simp [hv]
      rw [@List.filterMap_cons_some Volume (String × String)
        (fun v : Volume => v.persistentVolumeClaim.map (fun c => (v.name, c))) v rest
        (v.name, c) hf]
      by_cases hh : contains handled v.name = true
      · have hg : (fun p : String × String =>
            if contains handled p.fst then some p.snd else none) (v.name, c) = some c := by
          simp [hh]
        rw [@List.filterMap_cons_some (String × String) String
          (fun p : String × String => if contains handled p.fst then some p.snd else none)
          (v.name, c)
          (rest.filterMap (fun v : Volume => v.persistentVolumeClaim.map (fun c => (v.name, c))))
          c hg]
        show (c == claim
            || contains ((rest.filterMap
                (fun v => v.persistentVolumeClaim.map (fun c => (v.name, c)))).filterMap
                  (fun p => if contains handled p.fst then some p.snd else none)) claim) = _
        rw [ih, List.any_cons, hv]
        simp [someBeqSome, hh]
      · have hh' : contains handled v.name = false := by
          cases hx : contains handled v.name
          · rfl
          · exact absurd hx hh
        have hg : (fun p : String × String =>
            if contains handled p.fst then some p.snd else none) (v.name, c) = none := by
          simp [hh']
        rw [@List.filterMap_cons_none (String × String) String
          (fun p : String × String => if contains handled p.fst then some p.snd else none)
          (v.name, c)
          (rest.filterMap (fun v : Volume => v.persistentVolumeClaim.map (fun c => (v.name, c))))
          hg, ih, List.any_cons, hv]
        simp [someBeqSome, hh']

theorem contains_listPodHandledPVCs (pod : Pod)
    (h : (pod.volumes.map Volume.name).Nodup) (claim : String) :
    contains (listPodHandledPVCs pod) claim = podHandlesPVC pod claim := by
  unfold listPodHandledPVCs podHandlesPVC
  rw [volumeIndex_of_nodup pod h]
  exact containsFilterMapAux _ _ _

/-- First replica of ReplicaSet r: mounts PVC x via volume v, no
annotations. -/
def rsPod1 : Pod :=
  { name := "p1", ns := "d"
    annotations := []
    volumes := [{ name := "v", persistentVolumeClaim := some "x" }]
    ownerReferences := [{ kind := "ReplicaSet", name := "r", uid := "u1" }] }

/-- Second replica of the same ReplicaSet: mounts PVC x via volume v and
names v in its backup annotation. -/
def rsPod2 : Pod :=
  { name := "p2", ns := "d"
    annotations := [("backup.velero.io/backup-volumes", "v")]
    volumes := [{ name := "v", persistentVolumeClaim := some "x" }]
    ownerReferences := [{ kind := "ReplicaSet", name := "r", uid := "u1" }] }

/-- PVC x with no annotations. -/
def pvcX : PersistentVolumeClaim :=
  { name := "x", annotations := [] }

/-- C8 counterexample: pod p2 references PVC x through volume v named in
its backup annotation, yet `Update` still reports x missing, because
the owner-uid dedup of `getHandledPVCs` skips p2 (its ReplicaSet owner
was already seen on p1), so not every pod of the namespace contributes
coverage. -/
theorem owner_dedup_skips_annotated_sibling :
    podHandlesPVC rsPod2 "x" = true ∧
    pvcExcluded pvcX = false ∧
    Update "d" [rsPod1, rsPod2] [pvcX] = [{ ns := "d", pvcName := "x" }] := by
  decide

/-- C8 amended: a PVC without a true-valued backup-excluded annotation is
reported missing by `Update` exactly when no pod consulted by the
owner-dedup scan of `getHandledPVCs` (which skips any later pod sharing
an already-seen owner uid of kind other than StatefulSet) references it
through a volume named in that pod's backup-or-exclude annotation
token lists. -/
theorem pvc_missing_iff_unhandled_by_selected (nsp : String) (pods : List Pod)
    (pvcs : List PersistentVolumeClaim) (pvc : PersistentVolumeClaim)
    (hmem : pvc ∈ pvcs) (hexc : pvcExcluded pvc = false)
    (hnodup : ∀ p ∈ selectedPods pods, (p.volumes.map Volume.name).Nodup) :
    (({ ns := nsp, pvcName := pvc.name } : PVCInfo) ∈ Update nsp pods pvcs)
      ↔ ¬ (∃ p ∈ selectedPods pods, podHandlesPVC p pvc.name = true) := by
  have hsel2 : ((selectedPods pods).any fun p => contains (listPodHandledPVCs p) pvc.name)
      = ((selectedPods pods).any fun p => podHandlesPVC p pvc.name) :=
    anyCongrOfMem _ _ _
      (fun p hp => contains_listPodHandledPVCs p (hnodup p hp) pvc.name)
  have key : (({ ns := nsp, pvcName := pvc.name } : PVCInfo) ∈ Update nsp pods pvcs)
      ↔ contains (getHandledPVCs pods) pvc.name = false := by
    constructor
    · intro hin
      unfold Update at hin
      rw [List.mem_filterMap] at hin
      obtain ⟨q, _, hq2⟩ := hin
      cases he : pvcExcluded q with
      | true =>
        rw [if_pos (by rw [he])] at hq2
        exact absurd hq2 (by simp)
      | false =>
        rw [if_neg (by rw [he]; exact Bool.false_ne_true)] at hq2
        cases hc : contains (getHandledPVCs pods) q.name with
        | true =>
          rw [if_pos (by rw [hc])] at hq2
          exact absurd hq2 (by simp)
        | false =>
          rw [if_neg (by rw [hc]; exact Bool.false_ne_true)] at hq2
          have hname : q.name = pvc.name :=
            congrArg PVCInfo.pvcName (Option.some.inj hq2)
          rw [← hname]
          exact hc
    · intro hc
      unfold Update
      rw [List.mem_filterMap]
      refine ⟨pvc, hmem, ?_⟩
      rw [if_neg (by rw [hexc]; exact Bool.false_ne_true),
        if_neg (by rw [hc]; exact Bool.false_ne_true)]
  rw [key, getHandledPVCs_selected, hsel2]
  constructor
  · intro hfalse hex
    obtain ⟨p, hp, hpp⟩ := hex
    have : ((selectedPods pods).any fun p => podHandlesPVC p pvc.name) = true :=
      List.any_eq_true.mpr ⟨p, hp, hpp⟩
    rw [hfalse] at this
    exact Bool.false_ne_true this
  · intro hnone
    cases hx : ((selectedPods pods).any fun p => podHandlesPVC p pvc.name) with
    | true =>
      obtain ⟨p, hp, hpp⟩ := List.any_eq_true.mp hx
      exact absurd ⟨p, hp, hpp⟩ hnone
    | false => rfl

/-- Witness for the PVC-missing characterization: an unreferenced,
unexcluded PVC in a namespace with no pods is reported missing. -/
theorem pvc_missing_iff_witness :
    (({ ns := "d", pvcName := pvcX.name } : PVCInfo) ∈ Update "d" [] [pvcX])
      ↔ ¬ (∃ p ∈ selectedPods [], podHandlesPVC p pvcX.name = true) :=
  pvc_missing_iff_unhandled_by_selected "d" [] [pvcX] pvcX (by decide)
    (by decide) (by decide)
